import Mathlib

/-!
Shallow embedding of `aiicy-function-python3/function-python3.py`, the
gRPC function-execution host for python3 handlers.

Modelling conventions:
* Machine-level concerns (gRPC transport, the yaml parser, the filesystem)
  are external collaborators; they appear only through their contracts.
* Python's `json` standard-library module is modelled by its contract: the
  type `Bytes` records whether a byte string is empty, is the serialization
  of a JSON value, or is not valid JSON at all; `json.loads` and
  `json.dumps` act on that view.
* The process-global mutable state touched by the source (`os.getcwd` /
  `os.chdir` and `sys.path`) is threaded explicitly as a `World` value.
* Python exceptions become `Except` results; the distinct exception
  messages of the source become constructors of the error types.
-/

set_option autoImplicit false

/-- JSON values, as handled by Python's `json` module. -/
inductive Json where
  | null
  | bool (b : Bool)
  | num (n : Int)
  | str (s : String)
  | arr (elems : List Json)
  | obj (fields : List (String × Json))

/-- Byte strings, viewed through the `json` codec: a byte string is empty,
is the UTF-8 serialization `json.dumps(v).encode('utf-8')` of some JSON
value, or is some other (non-JSON) byte string identified by a tag. -/
inductive Bytes where
  | empty
  | jsonBytes (j : Json)
  | rawBytes (tag : Nat)

/-- Python values crossing the dispatcher boundary: a JSON-serializable
value (Python `None` is `.json .null`), a `bytes` object, or any other
object, on which `json.dumps` raises `TypeError`. -/
inductive PyVal where
  | json (j : Json)
  | bytes (b : Bytes)
  | unserializable (tag : Nat)

/-- Contract of `json.loads` on bytes: the serialization of `j` parses back
to `j`; empty input and non-JSON input raise (here: `none`). -/
def json.loads : Bytes → Option Json
  | Bytes.empty => none
  | Bytes.jsonBytes j => some j
  | Bytes.rawBytes _ => none

/-- Contract of `json.dumps(...).encode('utf-8')`: serializable values
produce the bytes that parse back to them; `bytes` objects and other
non-serializable objects raise `TypeError` (here: `none`). -/
def json.dumps : PyVal → Option Bytes
  | PyVal.json j => some (Bytes.jsonBytes j)
  | PyVal.bytes _ => none
  | PyVal.unserializable _ => none

/-- The process-global mutable state the source mutates: the current
working directory (`os.getcwd` / `os.chdir`) and `sys.path`. -/
structure World where
  cwd : String
  sysPath : List String
deriving DecidableEq, Repr

/-- Whether a path is absolute (starts with a slash). -/
def isAbs (s : String) : Bool :=
  match s.data with
  | [] => false
  | c :: _ => c == '/'

/-- Contract of `os.path.join(a, b)` for a posix path: an absolute second
component replaces the first, otherwise the components are joined with a
separator. -/
def os.path.join (a b : String) : String :=
  if isAbs b then b else a ++ "/" ++ b

/-- The request envelope of the `Call` RPC (`function.proto` message),
with `Payload` viewed through the json codec. -/
structure Request where
  FunctionName : String
  Payload : Bytes
  QOS : Nat
  Topic : String
  Timestamp : Nat
  FunctionInvokeID : String

/-- The per-call context dict built by `mo.Call` and passed to the
handler. -/
structure Ctx where
  messageQOS : Nat
  messageTopic : String
  messageTimestamp : Nat
  functionName : String
  functionInvokeID : String
  invokeid : String

/-- The `ctx` dict as assembled field-by-field in `mo.Call` (the invoke id
is stored twice, under `functionInvokeID` and the legacy `invokeid`). -/
def build_ctx (request : Request) : Ctx :=
  { messageQOS := request.QOS
    messageTopic := request.Topic
    messageTimestamp := request.Timestamp
    functionName := request.FunctionName
    functionInvokeID := request.FunctionInvokeID
    invokeid := request.FunctionInvokeID }

/-- Outcome of running a handler: a returned value or a raised exception.
Either way the handler may have mutated the process-global `World`
(handlers are free to call `os.chdir` themselves). -/
inductive HOutcome where
  | ok (v : PyVal) (w : World)
  | raises (w : World)

/-- A loaded handler instance: the object created by
`getattr(py_mod, handler_name)(fc['codedir'])`. `codedir` is what its
`get_codedir()` accessor returns; `run` is its `handler(msg, ctx)`
method, acting on the process-global state. -/
structure HandlerInstance where
  codedir : String
  run : PyVal → Ctx → World → HOutcome

/-- Python dicts keyed by strings, as used for `self.modules`: an
insertion sequence where a later binding of a key shadows an earlier
one. -/
abbrev Dict (α : Type) : Type := List (String × α)

/-- Dict lookup: the most recent binding of the key wins, matching Python
assignment semantics `d[k] = v`. -/
def dget {α : Type} (d : Dict α) (k : String) : Option α :=
  List.lookup k d.reverse

/-- Dict update `d[k] = v`. -/
def dset {α : Type} (d : Dict α) (k : String) (v : α) : Dict α :=
  d ++ [(k, v)]

/-- The distinct exceptions `mo.Call` can raise, identified by their
message tags in the source. -/
inductive CallError where
  | functionNotFound
  | userCodeInvoke
  | userCodeReturn
deriving DecidableEq, Repr

/-- The payload-decoding step of `mo.Call`: `msg = {}` unless the payload
is non-empty, in which case a JSON parse is attempted and, on failure, the
raw bytes are passed through unchanged. -/
def decode_payload (p : Bytes) : PyVal :=
  match p with
  | Bytes.empty => PyVal.json (Json.obj [])
  | p' =>
    match json.loads p' with
    | some j => PyVal.json j
    | none => PyVal.bytes p'

/-- The result-encoding step of `mo.Call`: `None` becomes empty bytes,
`bytes` results pass through unchanged, anything else goes through
`json.dumps(msg).encode('utf-8')` (which may raise). -/
def encode_payload (msg : PyVal) : Option Bytes :=
  match msg with
  | PyVal.json Json.null => some Bytes.empty
  | PyVal.bytes b => some b
  | other => json.dumps other

/-- `mo.Call(request, context)`: look the function up, build the context,
decode the payload, run the handler inside the working-directory switch of
the source (`os.chdir` into the codedir before the call, `os.chdir` back
only on the success path -- the restore statement sits inside the `try`
body, so a raising handler skips it), then encode the result into the
request envelope, which is returned. -/
def mo.Call (modules : Dict HandlerInstance) (request : Request) (w : World) :
    Except CallError Request × World :=
  match dget modules request.FunctionName with
  | none => (Except.error CallError.functionNotFound, w)
  | some m =>
    let ctx := build_ctx request
    let msg := decode_payload request.Payload
    let curr_path := w.cwd
    let w1 : World := { w with cwd := os.path.join curr_path m.codedir }
    match m.run msg ctx w1 with
    | HOutcome.raises w2 => (Except.error CallError.userCodeInvoke, w2)
    | HOutcome.ok v w2 =>
      let w3 : World := { w2 with cwd := curr_path }
      match encode_payload v with
      | some bs => (Except.ok { request with Payload := bs }, w3)
      | none => (Except.error CallError.userCodeReturn, w3)

/-- `mo.Talk(request_iterator, context)`: declared for protocol
compatibility, body is `pass` (returns `None`). -/
def mo.Talk (_request_iterator : List Request) : Option Request :=
  none

/-- Split a character list at dots, modelling Python `str.split('.')`.
Defined over the character list so it reduces definitionally. -/
def splitDotChars : List Char → List String
  | [] => [""]
  | c :: rest =>
    let r := splitDotChars rest
    if c == '.' then "" :: r
    else
      match r with
      | [] => [String.mk [c]]
      | x :: xs => String.mk (c :: x.data) :: xs

/-- Python `handler.split('.')`. -/
def str_split_dot (s : String) : List String :=
  splitDotChars s.data

/-- One entry of `config['functions']`: a dict whose keys `name`,
`handler` and `codedir` may each be absent. -/
structure FunctionSpec where
  name : Option String
  handler : Option String
  codedir : Option String
deriving DecidableEq, Repr

/-- The external module-resolution step of `load_modules`:
`SourceFileLoader(handler_name, file_stem + ".py").load_module()` followed
by `getattr(py_mod, handler_name)(codedir)`, as a function of the working
directory in effect, the file stem, the attribute name and the codedir.
It either produces a handler instance or raises (`none`). -/
structure LoadEnv where
  resolve : String → String → String → String → Option HandlerInstance

/-- The distinct ways `load_modules` can raise: the explicit config check,
the `IndexError` of popping a one-element split twice, or a failure inside
module loading / instantiation. -/
inductive LoadError where
  | configInvalid
  | indexError
  | loadFailure
deriving DecidableEq, Repr

/-- The loop body of `load_modules`, one iteration per spec: check the
three keys, append the codedir to `sys.path`, pop the split handler ref
twice, `os.chdir` into the codedir, resolve and instantiate the module,
store it under the function name, and `os.chdir` back.  The restore is a
plain statement, so a raising resolution skips it and propagates. -/
def load_modules_go (env : LoadEnv) : List FunctionSpec → Dict HandlerInstance → World →
    Except LoadError (Dict HandlerInstance) × World
  | [], fs, w => (Except.ok fs, w)
  | fc :: rest, fs, w =>
    match fc.name, fc.handler, fc.codedir with
    | some name, some handler, some codedir =>
      let w1 : World := { w with sysPath := w.sysPath ++ [codedir] }
      let module_handler := str_split_dot handler
      match module_handler.getLast?, module_handler.dropLast.getLast? with
      | some handler_name, some file_stem =>
        let curr_path := w1.cwd
        let w2 : World := { w1 with cwd := os.path.join curr_path codedir }
        match env.resolve w2.cwd file_stem handler_name codedir with
        | some module => load_modules_go env rest (dset fs name module) { w2 with cwd := curr_path }
        | none => (Except.error LoadError.loadFailure, w2)
      | _, _ => (Except.error LoadError.indexError, w1)
    | _, _, _ => (Except.error LoadError.configInvalid, w)

/-- `load_modules(c)`: fold the loop body over the function specs,
starting from the empty dict `fs = {}`. -/
def load_modules (env : LoadEnv) (c : List FunctionSpec) (w : World) :
    Except LoadError (Dict HandlerInstance) × World :=
  load_modules_go env c [] w

/-- Whether a spec passes the explicit key check of `load_modules`. -/
def specOk (fc : FunctionSpec) : Bool :=
  fc.name.isSome && fc.handler.isSome && fc.codedir.isSome

/-- Whether a spec's handler ref survives the two `pop()` calls, i.e. the
dot-split has a last element and still one after dropping it. -/
def handlerRefOk (fc : FunctionSpec) : Bool :=
  match fc.handler with
  | some h => ((str_split_dot h).getLast?).isSome && (((str_split_dot h).dropLast).getLast?).isSome
  | none => true

/-- Whether an `Except` result is a success. -/
def exceptIsOk {ε α : Type} : Except ε α → Bool
  | Except.ok _ => true
  | Except.error _ => false

/-- The `c['workers']` / `c['concurrent']` sub-dicts: an optional `max`
key. -/
structure OptMax where
  max : Option Nat
deriving DecidableEq, Repr

/-- The `c['message']` sub-dict: an optional `length` dict with an
optional `max` key. -/
structure MsgLenConf where
  length : Option OptMax
deriving DecidableEq, Repr

/-- The `config['server']` dict as consumed by `get_grpc_server`; `ca`,
`key`, `cert` hold file paths when present. -/
structure ServerConf where
  address : String
  workers : Option OptMax
  concurrent : Option OptMax
  message : Option MsgLenConf
  ca : Option String
  key : Option String
  cert : Option String

/-- How the gRPC listener was bound: with TLS server credentials
(`add_secure_port`) or without (`add_insecure_port`). -/
inductive PortBinding where
  | secure (key cert : String) (ca : Option String) (requireClientAuth : Bool) (address : String)
  | insecure (address : String)

/-- Whether the binding applied TLS server credentials. -/
def PortBinding.isSecure : PortBinding → Bool
  | PortBinding.secure _ _ _ _ _ => true
  | PortBinding.insecure _ => false

/-- Whether the binding requires (verifies) a client certificate. -/
def PortBinding.clientAuth : PortBinding → Bool
  | PortBinding.secure _ _ _ requireClientAuth _ => requireClientAuth
  | PortBinding.insecure _ => false

/-- The configured gRPC server object returned by `get_grpc_server`. -/
structure GrpcServer where
  maxWorkers : Option Nat
  maxConcurrent : Option Nat
  maxMessageLength : Nat
  binding : PortBinding

/-- `get_grpc_server(c)`: read the optional concurrency and message-size
limits, read the TLS material files that are configured (`readFile` is the
filesystem), and bind a secure port exactly when both a key and a cert
were read, with client verification required exactly when a CA was also
read. -/
def get_grpc_server (readFile : String → String) (c : ServerConf) : GrpcServer :=
  let max_workers : Option Nat :=
    match c.workers with
    | some ws => match ws.max with | some m => some m | none => none
    | none => none
  let max_concurrent : Option Nat :=
    match c.concurrent with
    | some cc => match cc.max with | some m => some m | none => none
    | none => none
  let max_message_length : Nat :=
    match c.message with
    | some mc =>
      match mc.length with
      | some lc => match lc.max with | some m => m | none => 4 * 1024 * 1024
      | none => 4 * 1024 * 1024
    | none => 4 * 1024 * 1024
  let ssl_ca : Option String := match c.ca with | some p => some (readFile p) | none => none
  let ssl_key : Option String := match c.key with | some p => some (readFile p) | none => none
  let ssl_cert : Option String := match c.cert with | some p => some (readFile p) | none => none
  let binding : PortBinding :=
    match ssl_key, ssl_cert with
    | some k, some ct => PortBinding.secure k ct ssl_ca ssl_ca.isSome c.address
    | _, _ => PortBinding.insecure c.address
  { maxWorkers := max_workers
    maxConcurrent := max_concurrent
    maxMessageLength := max_message_length
    binding := binding }

/-- The `config['server']` dict at validation time in `mo.Load`: only the
presence of the dict and of its `address` key matter there. -/
structure RawServer where
  address : Option String
deriving DecidableEq, Repr

/-- The parsed yaml config as validated by `mo.Load`. -/
structure RawConfig where
  name : Option String
  server : Option RawServer
  functions : Option (List FunctionSpec)
deriving DecidableEq, Repr

/-- The two environment overrides recognized by `mo.Load`. -/
structure EnvVars where
  instanceName : Option String
  instanceAddress : Option String
deriving DecidableEq, Repr

/-- The distinct `config invalid` exceptions of `mo.Load`. -/
inductive CfgError where
  | missingName
  | missingServer
  | missingServerAddress
  | missingFunctions
deriving DecidableEq, Repr

/-- The override-and-validate portion of `mo.Load`: apply the
instance-name override, apply the address override (creating the `server`
section if absent), then run the four presence checks in source order. -/
def mo.Load (env : EnvVars) (cfg0 : RawConfig) : Except CfgError RawConfig :=
  let cfg1 : RawConfig :=
    match env.instanceName with
    | some n => { cfg0 with name := some n }
    | none => cfg0
  let cfg2 : RawConfig :=
    match env.instanceAddress with
    | some a =>
      let server : RawServer :=
        match cfg1.server with
        | some s => s
        | none => { address := none }
      { cfg1 with server := some { server with address := some a } }
    | none => cfg1
  if cfg2.name.isNone then Except.error CfgError.missingName
  else
    match cfg2.server with
    | none => Except.error CfgError.missingServer
    | some s =>
      if s.address.isNone then Except.error CfgError.missingServerAddress
      else if cfg2.functions.isNone then Except.error CfgError.missingFunctions
      else Except.ok cfg2

/-- A handler that ignores its input and returns a fixed value without
touching the process state. -/
def pureHandler (cd : String) (v : PyVal) : HandlerInstance :=
  { codedir := cd, run := fun _ _ w => HOutcome.ok v w }

/-- A handler that returns its input message unchanged. -/
def echoHandler (cd : String) : HandlerInstance :=
  { codedir := cd, run := fun m _ w => HOutcome.ok m w }

/-- A handler whose body raises. -/
def raisingHandler : HandlerInstance :=
  { codedir := "fdir", run := fun _ _ w => HOutcome.raises w }

/-- A stub instance used as the result of successful module resolution. -/
def mkStub (cd : String) : HandlerInstance :=
  { codedir := cd, run := fun _ _ w => HOutcome.ok (PyVal.json Json.null) w }

/-- A resolution environment in which every module loads. -/
def envOK : LoadEnv := { resolve := fun _ _ _ cd => some (mkStub cd) }

/-- A resolution environment in which every module load raises. -/
def envFail : LoadEnv := { resolve := fun _ _ _ _ => none }

/-- A concrete initial world. -/
def w0 : World := { cwd := "/w", sysPath := [] }

/-- A concrete request targeting function `f`. -/
def req1 : Request :=
  { FunctionName := "f", Payload := Bytes.empty, QOS := 0, Topic := "t"
    Timestamp := 0, FunctionInvokeID := "i" }

/-- Two well-formed specs that share the name `f`. -/
def specA : FunctionSpec := { name := some "f", handler := some "i1.h1", codedir := some "d1" }

/-- Second spec with the duplicate name `f`. -/
def specB : FunctionSpec := { name := some "f", handler := some "i2.h2", codedir := some "d2" }

/-- A single well-formed spec, used with the failing resolver. -/
def specD : FunctionSpec := { name := some "f", handler := some "index.handler", codedir := some "d" }

/-- A spec with a missing `name` key. -/
def badSpec : FunctionSpec := { name := none, handler := some "index.handler", codedir := some "d" }

/-- A concrete request carrying a non-JSON payload. -/
def reqRaw : Request :=
  { FunctionName := "f", Payload := Bytes.rawBytes 7, QOS := 0, Topic := "t"
    Timestamp := 0, FunctionInvokeID := "i" }

/-- Environment with only the address override set. -/
def envB : EnvVars := { instanceName := none, instanceAddress := some "a" }

/-- Environment with neither override set. -/
def envNone : EnvVars := { instanceName := none, instanceAddress := none }

/-- Config with a name, no server section and a functions section. -/
def cfgB : RawConfig := { name := some "n", server := none, functions := some [] }

/-- Config with a name, no server section and no functions section. -/
def cfgC : RawConfig := { name := some "n", server := none, functions := none }

/-- Config with no name, no server section and a functions section. -/
def cfgD : RawConfig := { name := none, server := none, functions := some [] }

theorem go_ok_cwd (env : LoadEnv) :
    ∀ (c : List FunctionSpec) (fs : Dict HandlerInstance) (w : World)
      (d : Dict HandlerInstance) (w' : World),
      load_modules_go env c fs w = (Except.ok d, w') → w'.cwd = w.cwd := by
  intro c
  induction c with
  | nil =>
    intro fs w d w' h
    simp only [load_modules_go, Prod.mk.injEq] at h
    rw [← h.2]
  | cons fc rest ih =>
    intro fs w d w' h
    simp only [load_modules_go] at h
    split at h
    · split at h
      · split at h
        · have h2 := ih _ _ _ _ h
          simpa using h2
        · simp at h
      · simp at h
    · simp at h

theorem go_ok_sysPath (env : LoadEnv) :
    ∀ (c : List FunctionSpec) (fs : Dict HandlerInstance) (w : World)
      (d : Dict HandlerInstance) (w' : World),
      load_modules_go env c fs w = (Except.ok d, w') →
      w'.sysPath = w.sysPath ++ c.map (fun fc => fc.codedir.getD "") := by
  intro c
  induction c with
  | nil =>
    intro fs w d w' h
    simp only [load_modules_go, Prod.mk.injEq] at h
    rw [← h.2]
    simp
  | cons fc rest ih =>
    intro fs w d w' h
    simp only [load_modules_go] at h
    split at h
    next name handler codedir hname hhandler hcodedir =>
      split at h
      · split at h
        · have h2 := ih _ _ _ _ h
          simp only [h2]
          simp [hcodedir, List.append_assoc]
        · simp at h
      · simp at h
    next => simp at h


theorem go_sysPath_mono (env : LoadEnv) :
    ∀ (c : List FunctionSpec) (fs : Dict HandlerInstance) (w : World)
      (r : Except LoadError (Dict HandlerInstance)) (w' : World),
      load_modules_go env c fs w = (r, w') → ∃ t, w'.sysPath = w.sysPath ++ t := by
  intro c
  induction c with
  | nil =>
    intro fs w r w' h
    simp only [load_modules_go, Prod.mk.injEq] at h
    exact ⟨[], by rw [← h.2]; simp⟩
  | cons fc rest ih =>
    intro fs w r w' h
    rcases hname : fc.name with _ | name
    · simp only [load_modules_go, hname, Prod.mk.injEq] at h
      exact ⟨[], by rw [← h.2]; simp⟩
    rcases hhandler : fc.handler with _ | handler
    · simp only [load_modules_go, hname, hhandler, Prod.mk.injEq] at h
      exact ⟨[], by rw [← h.2]; simp⟩
    rcases hcodedir : fc.codedir with _ | codedir
    · simp only [load_modules_go, hname, hhandler, hcodedir, Prod.mk.injEq] at h
      exact ⟨[], by rw [← h.2]; simp⟩
    rcases hl1 : (str_split_dot handler).getLast? with _ | handler_name
    · simp only [load_modules_go, hname, hhandler, hcodedir, hl1, Prod.mk.injEq] at h
      rw [← h.2]
      exact ⟨_, rfl⟩
    rcases hl2 : (str_split_dot handler).dropLast.getLast? with _ | file_stem
    · simp only [load_modules_go, hname, hhandler, hcodedir, hl1, hl2, Prod.mk.injEq] at h
      rw [← h.2]
      exact ⟨_, rfl⟩
    rcases hres : env.resolve (os.path.join w.cwd codedir) file_stem handler_name codedir with _ | m
    · simp only [load_modules_go, hname, hhandler, hcodedir, hl1, hl2, hres, Prod.mk.injEq] at h
      rw [← h.2]
      exact ⟨_, rfl⟩
    · simp only [load_modules_go, hname, hhandler, hcodedir, hl1, hl2, hres] at h
      obtain ⟨t, ht⟩ := ih _ _ _ _ h
      refine ⟨codedir :: t, ?_⟩
      rw [ht]
      simp

theorem go_configInvalid (env : LoadEnv)
    (hres : ∀ a b c d, (env.resolve a b c d).isSome = true) :
    ∀ (c : List FunctionSpec) (fs : Dict HandlerInstance) (w : World),
      (∀ fc ∈ c, handlerRefOk fc = true) →
      (∃ fc ∈ c, specOk fc = false) →
      ∃ w', load_modules_go env c fs w = (Except.error LoadError.configInvalid, w') := by
  intro c
  induction c with
  | nil =>
    intro fs w _ hbad
    rcases hbad with ⟨fc, hmem, _⟩
    simp at hmem
  | cons fc rest ih =>
    intro fs w href hbad
    rcases hname : fc.name with _ | name
    · exact ⟨w, by simp [load_modules_go, hname]⟩
    rcases hhandler : fc.handler with _ | handler
    · exact ⟨w, by simp [load_modules_go, hname, hhandler]⟩
    rcases hcodedir : fc.codedir with _ | codedir
    · exact ⟨w, by simp [load_modules_go, hname, hhandler, hcodedir]⟩
    have hok : specOk fc = true := by simp [specOk, hname, hhandler, hcodedir]
    have hbad' : ∃ fc' ∈ rest, specOk fc' = false := by
      rcases hbad with ⟨fc', hmem, hb⟩
      rcases List.mem_cons.mp hmem with heq | hmem'
      · rw [heq, hok] at hb; cases hb
      · exact ⟨fc', hmem', hb⟩
    have hrefc : handlerRefOk fc = true := href fc (List.mem_cons_self _ _)
    have hsplit : ((str_split_dot handler).getLast?).isSome = true ∧
        ((str_split_dot handler).dropLast.getLast?).isSome = true := by
      simpa [handlerRefOk, hhandler] using hrefc
    obtain ⟨hs1, hs2⟩ := hsplit
    rcases hl1 : (str_split_dot handler).getLast? with _ | handler_name
    · rw [hl1] at hs1; cases hs1
    rcases hl2 : (str_split_dot handler).dropLast.getLast? with _ | file_stem
    · rw [hl2] at hs2; cases hs2
    have h3 := hres (os.path.join w.cwd codedir) file_stem handler_name codedir
    rcases hresv : env.resolve (os.path.join w.cwd codedir) file_stem handler_name codedir with _ | m
    · rw [hresv] at h3; cases h3
    obtain ⟨w', hw'⟩ := ih (dset fs name m) ⟨w.cwd, w.sysPath ++ [codedir]⟩
      (fun x hx => href x (List.mem_cons_of_mem _ hx)) hbad'
    refine ⟨w', ?_⟩
    simp only [load_modules_go, hname, hhandler, hcodedir, hl1, hl2, hresv]
    exact hw'

theorem dget_singleton {α : Type} (k : String) (v : α) : dget [(k, v)] k = some v := by
  simp [dget, List.lookup]

/-- C1: the claim states that the working directory is restored on every
exit path of a dispatched call, including when the handler raises.  The
code restores it only on the success path: at the concrete input below the
handler for `f` (registered codedir `fdir`) raises, and after the call the
process working directory is `/w/fdir`, not the pre-call directory `/w`. -/
theorem C1_call_cwd_not_restored_on_handler_error :
    mo.Call [("f", raisingHandler)] req1 w0 =
      (Except.error CallError.userCodeInvoke, { cwd := "/w/fdir", sysPath := [] }) ∧
    w0.cwd = "/w" ∧ ("/w/fdir" : String) ≠ "/w" :=
  ⟨rfl, rfl, by decide⟩

/-- C2 counterexample: when resolving the handler module raises, the
working-directory manipulation of `load_modules` is not undone: at this
concrete input the load fails and the working directory afterwards is the
handler's codedir `/w/d`, not the pre-load directory `/w`. -/
theorem C2_load_failure_cwd_not_restored_cex :
    load_modules envFail [specD] w0 =
      (Except.error LoadError.loadFailure, { cwd := "/w/d", sysPath := ["d"] }) ∧
    ("/w/d" : String) ≠ w0.cwd :=
  ⟨rfl, by decide⟩

/-- C2 (amended): when `load_modules` returns successfully, the pre-load
working directory is restored before it returns; a handler-load failure
propagates the exception and leaves the working directory at the failing
handler's codedir. -/
theorem C2_load_success_restores_cwd (env : LoadEnv) (c : List FunctionSpec) (w : World)
    (d : Dict HandlerInstance) (w' : World)
    (h : load_modules env c w = (Except.ok d, w')) : w'.cwd = w.cwd :=
  go_ok_cwd env c [] w d w' h

/-- C2 witness: the restore equation holds at a concrete successful load. -/
theorem C2_load_success_restores_cwd_witness :
    (World.mk "/w" ["d1", "d2"]).cwd = w0.cwd :=
  C2_load_success_restores_cwd envOK [specA, specB] w0
    [("f", mkStub "d1"), ("f", mkStub "d2")] (World.mk "/w" ["d1", "d2"]) rfl

/-- C4: when the requested function name is not in the registry, `Call`
raises `function not found` at once: the result is that error, the process
state is untouched, and no handler runs (the conclusion holds for every
registry without the name and every handler behaviour). -/
theorem C4_unknown_function_not_found (modules : Dict HandlerInstance) (req : Request)
    (w : World) (h : dget modules req.FunctionName = none) :
    mo.Call modules req w = (Except.error CallError.functionNotFound, w) := by
  unfold mo.Call
  rw [h]

/-- C4 witness: calling `f` against an empty registry fails with
`function not found` and leaves the world unchanged. -/
theorem C4_unknown_function_not_found_witness :
    mo.Call [] req1 w0 = (Except.error CallError.functionNotFound, w0) :=
  C4_unknown_function_not_found [] req1 w0 rfl

/-- C3 counterexample: two well-formed specs sharing the name `f` do not
make `load_modules` fail: the load succeeds, both entries land in the
dict, and lookup of `f` yields the handler of the later entry (codedir
`d2`), silently shadowing the earlier one. -/
theorem C3_duplicate_names_load_succeeds_cex :
    exceptIsOk (load_modules envOK [specA, specB] w0).1 = true ∧
    (load_modules envOK [specA, specB] w0).1 =
      Except.ok [("f", mkStub "d1"), ("f", mkStub "d2")] ∧
    (dget [("f", mkStub "d1"), ("f", mkStub "d2")] "f").map (fun m => m.codedir) = some "d2" :=
  ⟨rfl, rfl, rfl⟩

/-- C3 (amended): `load_modules` raises the `config invalid` error when
some spec is missing `name`, `handler` or `codedir` (provided the earlier
specs themselves load); duplicate names are NOT rejected: a two-spec list
sharing a name loads successfully and the registry maps the name to the
later entry's handler (last one wins). -/
theorem C3_missing_fields_error_duplicates_last_wins :
    (∀ (env : LoadEnv) (c : List FunctionSpec) (w : World),
      (∀ a b cc dd, (env.resolve a b cc dd).isSome = true) →
      (∀ fc ∈ c, handlerRefOk fc = true) →
      (∃ fc ∈ c, specOk fc = false) →
      ∃ w', load_modules env c w = (Except.error LoadError.configInvalid, w')) ∧
    (∀ (env : LoadEnv) (w : World) (n h1 cd1 h2 cd2 hn1 fb1 hn2 fb2 : String)
      (m1 m2 : HandlerInstance),
      (str_split_dot h1).getLast? = some hn1 →
      (str_split_dot h1).dropLast.getLast? = some fb1 →
      (str_split_dot h2).getLast? = some hn2 →
      (str_split_dot h2).dropLast.getLast? = some fb2 →
      env.resolve (os.path.join w.cwd cd1) fb1 hn1 cd1 = some m1 →
      env.resolve (os.path.join w.cwd cd2) fb2 hn2 cd2 = some m2 →
      load_modules env [⟨some n, some h1, some cd1⟩, ⟨some n, some h2, some cd2⟩] w =
        (Except.ok [(n, m1), (n, m2)], { cwd := w.cwd, sysPath := w.sysPath ++ [cd1, cd2] }) ∧
      dget [(n, m1), (n, m2)] n = some m2) := by
  constructor
  · intro env c w hres href hbad
    exact go_configInvalid env hres c [] w href hbad
  · intro env w n h1 cd1 h2 cd2 hn1 fb1 hn2 fb2 m1 m2 e1 e2 e3 e4 r1 r2
    constructor
    · simp [load_modules, load_modules_go, dset, e1, e2, e3, e4, r1, r2]
    · simp [dget, List.lookup]

/-- C3 witness: at concrete inputs, a spec with a missing `name` key makes
the load fail with the config error, and a duplicate-name pair loads with
the later handler winning. -/
theorem C3_missing_fields_error_duplicates_last_wins_witness :
    (∃ w', load_modules envOK [badSpec] w0 = (Except.error LoadError.configInvalid, w')) ∧
    (load_modules envOK [⟨some "f", some "i1.h1", some "d1"⟩, ⟨some "f", some "i2.h2", some "d2"⟩] w0 =
      (Except.ok [("f", mkStub "d1"), ("f", mkStub "d2")],
        { cwd := w0.cwd, sysPath := w0.sysPath ++ ["d1", "d2"] }) ∧
      dget [("f", mkStub "d1"), ("f", mkStub "d2")] "f" = some (mkStub "d2")) :=
  ⟨(C3_missing_fields_error_duplicates_last_wins).1 envOK [badSpec] w0
      (fun _ _ _ _ => rfl)
      (by intro fc hfc; simp at hfc; subst hfc; decide)
      ⟨badSpec, by simp, rfl⟩,
   (C3_missing_fields_error_duplicates_last_wins).2 envOK w0 "f" "i1.h1" "d1" "i2.h2" "d2"
      "h1" "i1" "h2" "i2" (mkStub "d1") (mkStub "d2") rfl rfl rfl rfl rfl rfl⟩

/-- C5: payload decoding never fails: an empty payload decodes to the
empty JSON object, a non-JSON payload is handed to the handler as the raw
bytes unchanged, and (third clause) a call whose handler echoes its input
completes successfully on a non-JSON payload, returning those bytes. -/
theorem C5_payload_decode_never_fails (p : Bytes) :
    (p = Bytes.empty → decode_payload p = PyVal.json (Json.obj [])) ∧
    (p ≠ Bytes.empty → json.loads p = none → decode_payload p = PyVal.bytes p) ∧
    (∀ (cd : String) (req : Request) (w : World), req.Payload = p → p ≠ Bytes.empty →
      json.loads p = none →
      mo.Call [(req.FunctionName, echoHandler cd)] req w = (Except.ok req, w)) := by
  have key : ∀ q : Bytes, q ≠ Bytes.empty → json.loads q = none →
      decode_payload q = PyVal.bytes q := by
    intro q hne hl
    cases q with
    | empty => exact absurd rfl hne
    | jsonBytes j => simp [json.loads] at hl
    | rawBytes t => rfl
  refine ⟨?_, ?_, ?_⟩
  · intro h; subst h; rfl
  · exact key p
  · intro cd req w hp hne hl
    subst hp
    simp [mo.Call, dget_singleton, echoHandler, encode_payload, key _ hne hl]

/-- C5 witness: the decode clauses at concrete payloads, and a complete
echo call on a concrete non-JSON payload. -/
theorem C5_payload_decode_never_fails_witness :
    decode_payload Bytes.empty = PyVal.json (Json.obj []) ∧
    decode_payload (Bytes.rawBytes 7) = PyVal.bytes (Bytes.rawBytes 7) ∧
    mo.Call [(reqRaw.FunctionName, echoHandler "d")] reqRaw w0 = (Except.ok reqRaw, w0) :=
  ⟨(C5_payload_decode_never_fails Bytes.empty).1 rfl,
   (C5_payload_decode_never_fails (Bytes.rawBytes 7)).2.1 (fun h => nomatch h) rfl,
   (C5_payload_decode_never_fails (Bytes.rawBytes 7)).2.2 "d" reqRaw w0 rfl
     (fun h => nomatch h) rfl⟩

/-- C6: the result-encoding policy of `Call`: a handler returning `None`
yields an empty payload, a handler returning raw bytes has them passed
through unchanged, any other JSON-serializable result is JSON-encoded, a
non-serializable result raises the `[UserCodeReturn]` error, and that
error kind is distinct from the `[UserCodeInvoke]` handler-execution
error. -/
theorem C6_response_encoding_policy (cd : String) (req : Request) (w : World) :
    mo.Call [(req.FunctionName, pureHandler cd (PyVal.json Json.null))] req w =
      (Except.ok { req with Payload := Bytes.empty }, w) ∧
    (∀ b, mo.Call [(req.FunctionName, pureHandler cd (PyVal.bytes b))] req w =
      (Except.ok { req with Payload := b }, w)) ∧
    (∀ j, j ≠ Json.null →
      mo.Call [(req.FunctionName, pureHandler cd (PyVal.json j))] req w =
        (Except.ok { req with Payload := Bytes.jsonBytes j }, w)) ∧
    (∀ t, mo.Call [(req.FunctionName, pureHandler cd (PyVal.unserializable t))] req w =
      (Except.error CallError.userCodeReturn, w)) ∧
    CallError.userCodeReturn ≠ CallError.userCodeInvoke := by
  refine ⟨?_, ?_, ?_, ?_, by decide⟩
  · simp [mo.Call, dget_singleton, pureHandler, encode_payload, json.dumps]
  · intro b
    simp [mo.Call, dget_singleton, pureHandler, encode_payload, json.dumps]
  · intro j hj
    cases j <;>
      first
        | exact absurd rfl hj
        | simp [mo.Call, dget_singleton, pureHandler, encode_payload, json.dumps]
  · intro t
    simp [mo.Call, dget_singleton, pureHandler, encode_payload, json.dumps]

/-- C6 witness: the encoding policy at concrete inputs, including the
non-null hypothesis discharged at `Json.num 1`. -/
theorem C6_response_encoding_policy_witness :
    mo.Call [(req1.FunctionName, pureHandler "d" (PyVal.json (Json.num 1)))] req1 w0 =
      (Except.ok { req1 with Payload := Bytes.jsonBytes (Json.num 1) }, w0) ∧
    mo.Call [(req1.FunctionName, pureHandler "d" (PyVal.unserializable 3))] req1 w0 =
      (Except.error CallError.userCodeReturn, w0) :=
  ⟨(C6_response_encoding_policy "d" req1 w0).2.2.1 (Json.num 1) (by simp),
   (C6_response_encoding_policy "d" req1 w0).2.2.2.1 3⟩

/-- C7 counterexample: a handler returning `None` (the JSON-serializable
value null) produces an empty response payload, and empty bytes do not
JSON-decode back to null -- the encode-then-decode round-trip fails at
`v = null`. -/
theorem C7_null_result_breaks_roundtrip_cex :
    mo.Call [("f", pureHandler "d" (PyVal.json Json.null))] req1 w0 =
      (Except.ok { req1 with Payload := Bytes.empty }, w0) ∧
    json.loads Bytes.empty = none ∧ (none : Option Json) ≠ some Json.null :=
  ⟨rfl, rfl, by simp⟩

/-- C7 (amended): for a handler returning a JSON-serializable value `v`
other than null, invoking the function with any payload returns a
response whose payload JSON-decodes back to `v`. -/
theorem C7_json_roundtrip_nonnull (cd : String) (req : Request) (w : World) (j : Json)
    (hj : j ≠ Json.null) :
    mo.Call [(req.FunctionName, pureHandler cd (PyVal.json j))] req w =
      (Except.ok { req with Payload := Bytes.jsonBytes j }, w) ∧
    json.loads (Bytes.jsonBytes j) = some j := by
  constructor
  · cases j <;>
      first
        | exact absurd rfl hj
        | simp [mo.Call, dget_singleton, pureHandler, encode_payload, json.dumps]
  · rfl

/-- C7 witness: the round-trip at the concrete value `Json.str "v"`. -/
theorem C7_json_roundtrip_nonnull_witness :
    mo.Call [(req1.FunctionName, pureHandler "d" (PyVal.json (Json.str "v")))] req1 w0 =
      (Except.ok { req1 with Payload := Bytes.jsonBytes (Json.str "v") }, w0) ∧
    json.loads (Bytes.jsonBytes (Json.str "v")) = some (Json.str "v") :=
  C7_json_roundtrip_nonnull "d" req1 w0 (Json.str "v") (by simp)

/-- C8: the listener is bound with TLS server credentials exactly when
both a key and a certificate are configured, and client-certificate
verification is required exactly when a CA is configured alongside key
and certificate. -/
theorem C8_tls_iff_key_and_cert (readFile : String → String) (c : ServerConf) :
    ((get_grpc_server readFile c).binding.isSecure = (c.key.isSome && c.cert.isSome)) ∧
    ((get_grpc_server readFile c).binding.clientAuth =
      (c.key.isSome && c.cert.isSome && c.ca.isSome)) := by
  obtain ⟨addr, ws, cc, msg, ca, key, cert⟩ := c
  cases ca <;> cases key <;> cases cert <;>
    simp [get_grpc_server, PortBinding.isSecure, PortBinding.clientAuth]

/-- C9: registry load appends each configured function's codedir to
`sys.path`, one entry per function in order, and removes nothing: a
successful load extends `sys.path` by exactly the list of codedirs, and
every load outcome leaves the original `sys.path` as a preserved prefix. -/
theorem C9_sys_path_appended_per_function (env : LoadEnv) (c : List FunctionSpec) (w : World) :
    (∀ (d : Dict HandlerInstance) (w' : World), load_modules env c w = (Except.ok d, w') →
      w'.sysPath = w.sysPath ++ c.map (fun fc => fc.codedir.getD "")) ∧
    (∃ t, (load_modules env c w).2.sysPath = w.sysPath ++ t) := by
  constructor
  · intro d w' h
    exact go_ok_sysPath env c [] w d w' h
  · exact go_sysPath_mono env c [] w (load_modules env c w).1 (load_modules env c w).2 rfl

/-- C9 witness: a concrete successful load of two functions appends
exactly their two codedirs. -/
theorem C9_sys_path_appended_per_function_witness :
    (World.mk "/w" ["d1", "d2"]).sysPath =
      w0.sysPath ++ [specA, specB].map (fun fc => fc.codedir.getD "") :=
  (C9_sys_path_appended_per_function envOK [specA, specB] w0).1
    [("f", mkStub "d1"), ("f", mkStub "d2")] (World.mk "/w" ["d1", "d2"]) rfl

/-- C10 counterexample: with the address override set and no server
section, `Load` does not succeed whenever another check fails -- here it
fails with the missing-functions error; and with the override unset, a
config lacking both name and server fails with the missing-name error,
not the missing-server error, so the claimed iff is also false. -/
theorem C10_env_override_cex :
    mo.Load envB cfgC = Except.error CfgError.missingFunctions ∧
    mo.Load envNone cfgD = Except.error CfgError.missingName :=
  ⟨rfl, rfl⟩

/-- C10 (amended): when the address override is set, `Load` never raises
the missing-server error, and a config without a server section loads
successfully provided the name and functions checks pass; the
missing-server error is raised iff the config lacks a server section, the
address override is unset, and the name check passed (a name is
configured or the name override is set). -/
theorem C10_missing_server_error_iff (env : EnvVars) (cfg : RawConfig) :
    (env.instanceAddress.isSome = true → mo.Load env cfg ≠ Except.error CfgError.missingServer) ∧
    (env.instanceAddress.isSome = true → cfg.server = none →
      (cfg.name.isSome = true ∨ env.instanceName.isSome = true) →
      cfg.functions.isSome = true → ∃ c, mo.Load env cfg = Except.ok c) ∧
    (mo.Load env cfg = Except.error CfgError.missingServer ↔
      (cfg.server = none ∧ env.instanceAddress = none ∧
        (cfg.name.isSome = true ∨ env.instanceName.isSome = true))) := by
  obtain ⟨cn, cs, cf⟩ := cfg
  obtain ⟨en, ea⟩ := env
  cases en <;> cases ea <;> cases cn <;> rcases cs with _ | ⟨sa⟩ <;> cases cf <;>
    simp [mo.Load] <;> (split <;> simp)

/-- C10 witness: with the override set, a config with a name and a
functions section but no server section loads successfully. -/
theorem C10_missing_server_error_iff_witness :
    ∃ c, mo.Load envB cfgB = Except.ok c :=
  (C10_missing_server_error_iff envB cfgB).2.1 rfl rfl (Or.inl rfl) rfl
